import Mathlib

/-!
Shallow embedding of the PixShop editor core (the App component of the
repository, plus the output-size handlers of CropPanel): the linear
edit-history store with undo/redo/reset, the dual mask layers with their
hasContent flags, the prompt ledger, the output-size spec, and the
crop-apply and generation submission paths.

Image payloads (JS File objects) are opaque immutable references; mask
bitmaps are represented by their alpha samples (the only semantic channel),
and the canvas rescale performed by drawImage is taken as an input where a
function consumes its result, since the claims quantify over the rescaled
samples themselves.
-/

/-- An immutable raster payload (a JS File object); identity models the
JS object reference. -/
structure ImageVersion where
  id : Nat
deriving DecidableEq, Repr

/-- The kind tag of a prompt-ledger entry (`HistoryItem.type` in source:
one of retouch, adjust or filters; crop never produces an entry). -/
inductive HistoryKind where
  | retouch
  | adjust
  | filters
deriving DecidableEq, Repr

/-- A prompt-ledger entry: `type HistoryItem = \x7b type; prompt \x7d`. -/
structure HistoryItem where
  type : HistoryKind
  prompt : String
deriving DecidableEq, Repr

/-- The user-configurable output dimensions (`outputSize` state). -/
structure Size where
  width : Int
  height : Int
deriving DecidableEq, Repr

/-- A completed crop selection in displayed-image pixels (`PixelCrop`). -/
structure CropRect where
  x : Int
  y : Int
  width : Int
  height : Int
deriving DecidableEq, Repr

/-- An exported mask raster (the PNG File produced from the temp canvas):
its dimensions and its alpha samples in row-major order. -/
structure Raster where
  width : Nat
  height : Nat
  alpha : List Nat
deriving DecidableEq, Repr

/-- The outcome of an asynchronous generation-service call: the decoded
result File, or the thrown error message. -/
inductive GenResult where
  | ok (img : ImageVersion)
  | err (msg : String)
deriving DecidableEq, Repr

/-- The controller state of the App component: the fields of the source
React state that the verified claims mention.  Mask layers are their
alpha-sample lists at display resolution. -/
structure AppState where
  history : List ImageVersion
  historyIndex : Int
  promptHistory : List HistoryItem
  editMask : List Nat
  preserveMask : List Nat
  hasEditMask : Bool
  hasPreserveMask : Bool
  outputSize : Option Size
  crop : Option CropRect
  completedCrop : Option CropRect
  prompt : String
  error : Option String
  isLoading : Bool
deriving DecidableEq, Repr

/-- JS `Array.prototype.slice(0, e)`: a negative end counts from the end of
the array and is clamped at 0; an end beyond the length is clamped to it. -/
def jsSliceTo {α : Type} (l : List α) (e : Int) : List α :=
  if e < 0 then l.take (l.length + e).toNat else l.take e.toNat

/-- The truthiness test `!s.trim()`: the trimmed string is empty exactly
when every character is whitespace. -/
def trimmedEmpty (s : String) : Bool :=
  s.data.all (fun c => c.isWhitespace)

/-- JS `parseInt(s, 10) || 0`: skip leading whitespace, parse an optional
sign and a leading run of decimal digits; NaN (no digits) and 0 (and -0)
both collapse to 0 through the `|| 0` fallback, any other parsed value
passes through. -/
def jsParseIntOr0 (s : String) : Int :=
  let cs := s.data.dropWhile (fun c => c.isWhitespace)
  let signed : Int × List Char :=
    match cs with
    | '-' :: rest => (-1, rest)
    | '+' :: rest => (1, rest)
    | rest => (1, rest)
  let digits := signed.2.takeWhile (fun c => c.isDigit)
  if digits.isEmpty then 0
  else signed.1 * (digits.foldl (fun acc c => acc * 10 + (c.toNat - 48)) 0 : Nat)

/-- `history[historyIndex] ?? null`. -/
def currentImage (st : AppState) : Option ImageVersion :=
  if st.historyIndex < 0 then none else st.history.get? st.historyIndex.toNat

/-- `const canUndo = historyIndex > 0`. -/
def canUndo (st : AppState) : Bool :=
  st.historyIndex > 0

/-- `const canRedo = historyIndex < history.length - 1`. -/
def canRedo (st : AppState) : Bool :=
  st.historyIndex < (st.history.length : Int) - 1

/-- `clearMasks`: clearRect zeroes both mask canvases and resets both
hasContent flags. -/
def clearMasks (st : AppState) : AppState :=
  { st with
    editMask := st.editMask.map (fun _ => 0)
    preserveMask := st.preserveMask.map (fun _ => 0)
    hasEditMask := false
    hasPreserveMask := false }

/-- `addImageToHistory`: slice the history up to and including
`historyIndex`, push the new file, point the index at the new end, and
clear the transient crop selection. -/
def addImageToHistory (st : AppState) (newImageFile : ImageVersion) : AppState :=
  let newHistory := jsSliceTo st.history (st.historyIndex + 1) ++ [newImageFile]
  { st with
    history := newHistory
    historyIndex := (newHistory.length : Int) - 1
    crop := none
    completedCrop := none }

/-- `addPromptToHistory`: append one ledger entry. -/
def addPromptToHistory (st : AppState) (type : HistoryKind) (p : String) : AppState :=
  { st with promptHistory := st.promptHistory ++ [{ type := type, prompt := p }] }

/-- `handleUndo`: guarded by canUndo; decrements the index and clears the
masks. -/
def handleUndo (st : AppState) : AppState :=
  if canUndo st then clearMasks { st with historyIndex := st.historyIndex - 1 } else st

/-- `handleRedo`: guarded by canRedo; increments the index and clears the
masks. -/
def handleRedo (st : AppState) : AppState :=
  if canRedo st then clearMasks { st with historyIndex := st.historyIndex + 1 } else st

/-- `handleReset`: on a non-empty history, moves the index to 0, clears the
error and the masks; the version array is untouched. -/
def handleReset (st : AppState) : AppState :=
  if 0 < st.history.length then
    clearMasks { st with historyIndex := 0, error := none }
  else st

/-- `handleUploadNew`: empties the sequence and all prompt state and clears
the masks. -/
def handleUploadNew (st : AppState) : AppState :=
  clearMasks
    { st with
      history := []
      historyIndex := -1
      error := none
      prompt := ""
      outputSize := none
      promptHistory := [] }

/-- `proceedWithImageUpload`: initialize the output size from the image
natural dimensions, seed the history with the single uploaded file, clear
the selection, the ledger and the masks. -/
def proceedWithImageUpload (st : AppState) (file : ImageVersion) (w h : Int) : AppState :=
  clearMasks
    { st with
      outputSize := some { width := w, height := h }
      history := [file]
      historyIndex := 0
      crop := none
      completedCrop := none
      promptHistory := [] }

/-- `handleWidthChange` of CropPanel: when an output size exists, replace
its width by `parseInt(value, 10) || 0`. -/
def handleWidthChange (st : AppState) (value : String) : AppState :=
  match st.outputSize with
  | some sz => { st with outputSize := some { sz with width := jsParseIntOr0 value } }
  | none => st

/-- `handleHeightChange` of CropPanel: the same for the height. -/
def handleHeightChange (st : AppState) (value : String) : AppState :=
  match st.outputSize with
  | some sz => { st with outputSize := some { sz with height := jsParseIntOr0 value } }
  | none => st

/-- `scaleAndExportMask` of handleGenerate, applied to the alpha samples
`rescaled` of the native-resolution temp canvas after drawImage: the data
URL of a zero-area canvas is the empty URL, and a zero top-left alpha
sample triggers a full scan; when every sample is zero the function
returns null instead of a file, otherwise the exported raster has the
temp-canvas (native) dimensions. -/
def scaleAndExportMask (nativeW nativeH : Nat) (rescaled : List Nat) : Option Raster :=
  if nativeW = 0 || nativeH = 0 || rescaled.headD 1 = 0 then
    if rescaled.all (fun a => a = 0) then none
    else some { width := nativeW, height := nativeH, alpha := rescaled }
  else some { width := nativeW, height := nativeH, alpha := rescaled }

/-- `handleGenerate`, with the network outcome and the rescaled mask
samples passed in.  Returns the new state and whether the generation
service was actually invoked. -/
def handleGenerate (st : AppState) (nativeW nativeH : Nat)
    (rescaledEdit rescaledPreserve : List Nat) (net : GenResult) : AppState × Bool :=
  if (currentImage st).isNone then
    ({ st with error := some "Nenhuma imagem carregada para editar." }, false)
  else if trimmedEmpty st.prompt then
    ({ st with error := some "Por favor, insira uma descricao para sua edicao." }, false)
  else if st.hasEditMask = false then
    ({ st with error := some "Por favor, pinte sobre a area da imagem que voce deseja editar." }, false)
  else if st.outputSize.isNone then
    ({ st with error := some "As dimensoes da imagem de saida nao foram definidas." }, false)
  else
    let st1 := { st with isLoading := true, error := none }
    let editMaskFile := scaleAndExportMask nativeW nativeH rescaledEdit
    let _preserveMaskFile :=
      if st.hasPreserveMask then scaleAndExportMask nativeW nativeH rescaledPreserve else none
    match editMaskFile with
    | none =>
        ({ st1 with error := some "A mascara de edicao parece estar vazia.", isLoading := false }, false)
    | some _ =>
        match net with
        | GenResult.ok img =>
            let st2 := addImageToHistory st1 img
            let st3 := addPromptToHistory st2 HistoryKind.retouch st.prompt
            let st4 := clearMasks st3
            ({ st4 with isLoading := false }, true)
        | GenResult.err e =>
            ({ st1 with error := some ("Falha ao gerar a imagem. " ++ e), isLoading := false }, true)

/-- `handleApplyFilter`, with the network outcome passed in. -/
def handleApplyFilter (st : AppState) (filterPrompt : String) (net : GenResult) : AppState :=
  if (currentImage st).isNone then
    { st with error := some "Nenhuma imagem carregada para aplicar um filtro." }
  else if st.outputSize.isNone then
    { st with error := some "As dimensoes da imagem de saida nao foram definidas." }
  else
    let st1 := { st with isLoading := true, error := none }
    match net with
    | GenResult.ok img =>
        let st2 := addPromptToHistory (addImageToHistory st1 img) HistoryKind.filters filterPrompt
        { st2 with isLoading := false }
    | GenResult.err e =>
        { st1 with error := some ("Falha ao aplicar o filtro. " ++ e), isLoading := false }

/-- `handleApplyAdjustment`, with the network outcome passed in. -/
def handleApplyAdjustment (st : AppState) (adjustmentPrompt : String) (net : GenResult) : AppState :=
  if (currentImage st).isNone then
    { st with error := some "Nenhuma imagem carregada para aplicar um ajuste." }
  else if st.outputSize.isNone then
    { st with error := some "As dimensoes da imagem de saida nao foram definidas." }
  else
    let st1 := { st with isLoading := true, error := none }
    match net with
    | GenResult.ok img =>
        let st2 := addPromptToHistory (addImageToHistory st1 img) HistoryKind.adjust adjustmentPrompt
        { st2 with isLoading := false }
    | GenResult.err e =>
        { st1 with error := some ("Falha ao aplicar o ajuste. " ++ e), isLoading := false }

/-- `handleApplyCrop`, with the rasterized crop result passed in: without a
completed selection and a displayed image it only reports an error,
otherwise it commits the rasterized file.  No ledger entry is appended and
the masks are not cleared. -/
def handleApplyCrop (st : AppState) (newImageFile : ImageVersion) : AppState :=
  if st.completedCrop.isNone || (currentImage st).isNone then
    { st with error := some "Por favor, selecione uma area para cortar." }
  else
    addImageToHistory st newImageFile

/-- The `isCropping` prop of CropPanel:
`!!completedCrop?.width && completedCrop.width > 0` — the height of the
selection is never inspected. -/
def isCropping (st : AppState) : Bool :=
  match st.completedCrop with
  | none => false
  | some r => decide (r.width ≠ 0) && decide (r.width > 0)

/-- The crop-apply action as reachable from the UI: the Aplicar Corte
button is disabled while loading or while `isCropping` is false. -/
def applyCropFromPanel (st : AppState) (newImageFile : ImageVersion) : AppState :=
  if st.isLoading = false && isCropping st then handleApplyCrop st newImageFile else st

/-- The initial controller state: no history, index -1, everything empty. -/
def initialState : AppState :=
  { history := []
    historyIndex := -1
    promptHistory := []
    editMask := []
    preserveMask := []
    hasEditMask := false
    hasPreserveMask := false
    outputSize := none
    crop := none
    completedCrop := none
    prompt := ""
    error := none
    isLoading := false }

/-- A state with the given history and index and all transient state at its
initial value; used to build the concrete scenarios of the spec. -/
def mkHistoryState (h : List ImageVersion) (i : Int) : AppState :=
  { initialState with history := h, historyIndex := i }

/-- States reachable from the empty state by the history operations the
spec names: commit, undo, redo, reset, uploadNew. -/
inductive Reachable : AppState → Prop where
  | init : Reachable initialState
  | commit (st : AppState) (img : ImageVersion) :
      Reachable st → Reachable (addImageToHistory st img)
  | undo (st : AppState) : Reachable st → Reachable (handleUndo st)
  | redo (st : AppState) : Reachable st → Reachable (handleRedo st)
  | reset (st : AppState) : Reachable st → Reachable (handleReset st)
  | uploadNew (st : AppState) : Reachable st → Reachable (handleUploadNew st)

/-- Both mask layers fully transparent and both hasContent flags false. -/
def masksCleared (st : AppState) : Prop :=
  st.hasEditMask = false ∧ st.hasPreserveMask = false ∧
    (∀ a ∈ st.editMask, a = 0) ∧ (∀ a ∈ st.preserveMask, a = 0)

/-- Concrete state for the filter counterexample: one committed version, a
painted edit mask, an output size. -/
def stFilterMask : AppState :=
  { mkHistoryState [ImageVersion.mk 0] 0 with
      hasEditMask := true
      editMask := [200]
      outputSize := some { width := 10, height := 10 } }

/-- Concrete state with a completed crop selection of width 5 and height 0. -/
def stCropZeroHeight : AppState :=
  { mkHistoryState [ImageVersion.mk 0] 0 with
      completedCrop := some { x := 0, y := 0, width := 5, height := 0 } }

/-- Concrete state with a completed non-degenerate crop selection. -/
def stCropReady : AppState :=
  { mkHistoryState [ImageVersion.mk 0] 0 with
      completedCrop := some { x := 0, y := 0, width := 5, height := 5 } }

/-- Concrete state with a positive output size, for the output-size
counterexample. -/
def stOutput : AppState :=
  { mkHistoryState [ImageVersion.mk 0] 0 with
      outputSize := some { width := 100, height := 100 } }

/-- Concrete state from which a generation submission succeeds. -/
def stGenReady : AppState :=
  { mkHistoryState [ImageVersion.mk 0] 0 with
      prompt := "x"
      hasEditMask := true
      editMask := [200]
      preserveMask := [3]
      outputSize := some { width := 1, height := 1 } }

theorem clearMasks_history (st : AppState) : (clearMasks st).history = st.history := rfl

theorem clearMasks_historyIndex (st : AppState) :
    (clearMasks st).historyIndex = st.historyIndex := rfl

theorem clearMasks_promptHistory (st : AppState) :
    (clearMasks st).promptHistory = st.promptHistory := rfl

theorem masksCleared_clearMasks (st : AppState) : masksCleared (clearMasks st) := by
  refine ⟨rfl, rfl, ?_, ?_⟩ <;> · intro a ha; simp [clearMasks] at ha; exact ha.2

theorem canUndo_iff (st : AppState) : canUndo st = true ↔ 0 < st.historyIndex := by
  simp [canUndo]

theorem canRedo_iff (st : AppState) :
    canRedo st = true ↔ st.historyIndex < (st.history.length : Int) - 1 := by
  simp [canRedo]

theorem addImageToHistory_bounds (st : AppState) (d : ImageVersion) :
    0 ≤ (addImageToHistory st d).historyIndex ∧
    (addImageToHistory st d).historyIndex ≤ ((addImageToHistory st d).history.length : Int) - 1 := by
  unfold addImageToHistory
  simp only [List.length_append, List.length_cons, List.length_nil]
  constructor <;> omega

/-- C1: `addImageToHistory` (commit) first discards every version strictly
after `currentIndex`, then appends the new version, then sets the index to
the new length minus 1; in particular from history [A, B, C] with index 1,
committing D yields [A, B, D] with index 2. -/
theorem addImageToHistory_truncates_appends :
    (∀ A B C D : ImageVersion,
       (addImageToHistory (mkHistoryState [A, B, C] 1) D).history = [A, B, D] ∧
       (addImageToHistory (mkHistoryState [A, B, C] 1) D).historyIndex = 2) ∧
    (∀ (st : AppState) (d : ImageVersion), -1 ≤ st.historyIndex →
       (addImageToHistory st d).history =
         st.history.take (st.historyIndex + 1).toNat ++ [d] ∧
       (addImageToHistory st d).historyIndex =
         ((addImageToHistory st d).history.length : Int) - 1) := by
  constructor
  · intro A B C D
    exact ⟨rfl, rfl⟩
  · intro st d h
    refine ⟨?_, rfl⟩
    unfold addImageToHistory jsSliceTo
    rw [if_neg (by omega : ¬ st.historyIndex + 1 < 0)]

/-- Witness for C1 at history [0, 1, 2], index 1, committing 3. -/
theorem addImageToHistory_truncates_appends_witness :
    (addImageToHistory (mkHistoryState [ImageVersion.mk 0, ImageVersion.mk 1, ImageVersion.mk 2] 1)
        (ImageVersion.mk 3)).history =
      (mkHistoryState [ImageVersion.mk 0, ImageVersion.mk 1, ImageVersion.mk 2] 1).history.take
        ((mkHistoryState [ImageVersion.mk 0, ImageVersion.mk 1, ImageVersion.mk 2] 1).historyIndex
          + 1).toNat ++ [ImageVersion.mk 3] :=
  (addImageToHistory_truncates_appends.2
    (mkHistoryState [ImageVersion.mk 0, ImageVersion.mk 1, ImageVersion.mk 2] 1)
    (ImageVersion.mk 3) (by decide)).1

/-- C2: every state reachable from the empty state by commit, undo, redo,
reset, uploadNew satisfies -1 ≤ currentIndex ≤ length - 1, with canUndo
iff currentIndex > 0 and canRedo iff currentIndex < length - 1; and after
every step of any sequence of commits from the empty state,
0 ≤ currentIndex ≤ length - 1. -/
theorem historySequence_index_invariant :
    (∀ st : AppState, Reachable st →
       (-1 ≤ st.historyIndex ∧ st.historyIndex ≤ (st.history.length : Int) - 1) ∧
       (canUndo st = true ↔ 0 < st.historyIndex) ∧
       (canRedo st = true ↔ st.historyIndex < (st.history.length : Int) - 1)) ∧
    (∀ (pre : List ImageVersion) (d : ImageVersion),
       0 ≤ ((pre ++ [d]).foldl addImageToHistory initialState).historyIndex ∧
       ((pre ++ [d]).foldl addImageToHistory initialState).historyIndex ≤
         (((pre ++ [d]).foldl addImageToHistory initialState).history.length : Int) - 1) := by
  constructor
  · intro st h
    refine ⟨?_, canUndo_iff st, canRedo_iff st⟩
    induction h with
    | init => exact ⟨by decide, by decide⟩
    | commit st img _ ih =>
        have hb := addImageToHistory_bounds st img
        exact ⟨by omega, hb.2⟩
    | undo st _ ih =>
        unfold handleUndo
        by_cases hc : canUndo st = true
        · rw [if_pos hc]
          have hi := (canUndo_iff st).mp hc
          simp only [clearMasks, clearMasks_history, clearMasks_historyIndex]
          constructor <;> omega
        · rw [if_neg (by simpa using hc)]
          exact ih
    | redo st _ ih =>
        unfold handleRedo
        by_cases hc : canRedo st = true
        · rw [if_pos hc]
          have hi := (canRedo_iff st).mp hc
          simp only [clearMasks, clearMasks_history, clearMasks_historyIndex]
          constructor <;> omega
        · rw [if_neg (by simpa using hc)]
          exact ih
    | reset st _ ih =>
        unfold handleReset
        by_cases hc : 0 < st.history.length
        · rw [if_pos hc]
          simp only [clearMasks, clearMasks_history, clearMasks_historyIndex]
          constructor <;> omega
        · rw [if_neg hc]
          exact ih
    | uploadNew st _ ih =>
        constructor <;> simp [handleUploadNew, clearMasks]
  · intro pre d
    rw [List.foldl_append]
    simpa using addImageToHistory_bounds (pre.foldl addImageToHistory initialState) d

/-- Witness for C2 at the initial state and at the one-commit sequence. -/
theorem historySequence_index_invariant_witness :
    ((-1 ≤ initialState.historyIndex ∧
        initialState.historyIndex ≤ (initialState.history.length : Int) - 1) ∧
      (canUndo initialState = true ↔ 0 < initialState.historyIndex) ∧
      (canRedo initialState = true ↔
        initialState.historyIndex < (initialState.history.length : Int) - 1)) ∧
    0 ≤ (([] ++ [ImageVersion.mk 0]).foldl addImageToHistory initialState).historyIndex :=
  ⟨historySequence_index_invariant.1 initialState Reachable.init,
   (historySequence_index_invariant.2 [] (ImageVersion.mk 0)).1⟩

/-- C3: in any state satisfying the history invariant where canUndo holds,
undo then redo with no intervening commit restores the index, leaves the
version array untouched, and so yields the identical current
ImageVersion reference. -/
theorem undo_redo_restores_current (st : AppState)
    (hU : canUndo st = true)
    (hInv : st.historyIndex ≤ (st.history.length : Int) - 1) :
    (handleRedo (handleUndo st)).historyIndex = st.historyIndex ∧
    (handleRedo (handleUndo st)).history = st.history ∧
    currentImage (handleRedo (handleUndo st)) = currentImage st := by
  have hi : 0 < st.historyIndex := (canUndo_iff st).mp hU
  have h1 : handleUndo st = clearMasks { st with historyIndex := st.historyIndex - 1 } := by
    unfold handleUndo
    rw [if_pos hU]
  have hun : (handleUndo st).historyIndex = st.historyIndex - 1 := by
    rw [h1, clearMasks_historyIndex]
  have hunh : (handleUndo st).history = st.history := by
    rw [h1, clearMasks_history]
  have hR : canRedo (handleUndo st) = true := by
    rw [canRedo_iff, hun, hunh]
    omega
  have h2 : handleRedo (handleUndo st) =
      clearMasks { handleUndo st with historyIndex := (handleUndo st).historyIndex + 1 } := by
    unfold handleRedo
    rw [if_pos hR]
  have hix : (handleRedo (handleUndo st)).historyIndex = st.historyIndex := by
    rw [h2, clearMasks_historyIndex]
    show (handleUndo st).historyIndex + 1 = st.historyIndex
    rw [hun]
    omega
  have hh : (handleRedo (handleUndo st)).history = st.history := by
    rw [h2, clearMasks_history]
    show (handleUndo st).history = st.history
    exact hunh
  refine ⟨hix, hh, ?_⟩
  unfold currentImage
  rw [hix, hh]

/-- Witness for C3 at history [0, 1] with index 1. -/
theorem undo_redo_restores_current_witness :
    currentImage (handleRedo (handleUndo (mkHistoryState [ImageVersion.mk 0, ImageVersion.mk 1] 1)))
      = currentImage (mkHistoryState [ImageVersion.mk 0, ImageVersion.mk 1] 1) :=
  (undo_redo_restores_current (mkHistoryState [ImageVersion.mk 0, ImageVersion.mk 1] 1)
    (by decide) (by decide)).2.2

/-- C4: reset on a non-empty history moves the index to 0 and leaves the
version array untouched, so later versions stay reachable by redo: from
[A, B, C] with index 2, reset gives index 0 with history still [A, B, C],
then redo reaches B and a second redo reaches C. -/
theorem reset_keeps_versions_redoable :
    (∀ st : AppState, 0 < st.history.length →
       (handleReset st).historyIndex = 0 ∧ (handleReset st).history = st.history) ∧
    (∀ A B C : ImageVersion,
       (handleReset (mkHistoryState [A, B, C] 2)).historyIndex = 0 ∧
       (handleReset (mkHistoryState [A, B, C] 2)).history = [A, B, C] ∧
       currentImage (handleRedo (handleReset (mkHistoryState [A, B, C] 2))) = some B ∧
       currentImage (handleRedo (handleRedo (handleReset (mkHistoryState [A, B, C] 2)))) = some C) := by
  constructor
  · intro st h
    unfold handleReset
    rw [if_pos h]
    exact ⟨clearMasks_historyIndex _, clearMasks_history _⟩
  · intro A B C
    exact ⟨rfl, rfl, rfl, rfl⟩

/-- Witness for C4 at a one-element history. -/
theorem reset_keeps_versions_redoable_witness :
    (handleReset (mkHistoryState [ImageVersion.mk 7] 0)).historyIndex = 0 ∧
    (handleReset (mkHistoryState [ImageVersion.mk 7] 0)).history =
      (mkHistoryState [ImageVersion.mk 7] 0).history :=
  reset_keeps_versions_redoable.1 (mkHistoryState [ImageVersion.mk 7] 0) (by decide)

theorem handleGenerate_ok_cases (st : AppState) (nW nH : Nat) (re rp : List Nat)
    (img : ImageVersion) :
    (handleGenerate st nW nH re rp (GenResult.ok img)).2 = false ∨
    masksCleared (handleGenerate st nW nH re rp (GenResult.ok img)).1 := by
  unfold handleGenerate
  split
  · exact Or.inl rfl
  split
  · exact Or.inl rfl
  split
  · exact Or.inl rfl
  split
  · exact Or.inl rfl
  · dsimp only
    split
    · exact Or.inl rfl
    · exact Or.inr (masksCleared_clearMasks _)

/-- Counterexample to C5: from a state with a painted edit mask, a
successful filter commit appends to the history but leaves the edit mask
and its flag untouched. -/
theorem maskClear_filter_counterexample :
    (handleApplyFilter stFilterMask "sepia" (GenResult.ok (ImageVersion.mk 1))).history =
      [ImageVersion.mk 0, ImageVersion.mk 1] ∧
    (handleApplyFilter stFilterMask "sepia" (GenResult.ok (ImageVersion.mk 1))).hasEditMask = true ∧
    (handleApplyFilter stFilterMask "sepia" (GenResult.ok (ImageVersion.mk 1))).editMask = [200] := by
  decide

/-- C5 amended: both mask layers are cleared to fully transparent with
their flags false after a successful generative-edit commit and after
every undo, redo, reset, new upload and fresh image load; filter,
adjustment and crop commits leave the mask layers and flags unchanged. -/
theorem maskClear_amended :
    (∀ (st : AppState) (nW nH : Nat) (re rp : List Nat) (img : ImageVersion),
       (handleGenerate st nW nH re rp (GenResult.ok img)).2 = true →
         masksCleared (handleGenerate st nW nH re rp (GenResult.ok img)).1) ∧
    (∀ st : AppState, canUndo st = true → masksCleared (handleUndo st)) ∧
    (∀ st : AppState, canRedo st = true → masksCleared (handleRedo st)) ∧
    (∀ st : AppState, 0 < st.history.length → masksCleared (handleReset st)) ∧
    (∀ st : AppState, masksCleared (handleUploadNew st)) ∧
    (∀ (st : AppState) (f : ImageVersion) (w h : Int),
       masksCleared (proceedWithImageUpload st f w h)) ∧
    (∀ (st : AppState) (p : String) (net : GenResult),
       (handleApplyFilter st p net).hasEditMask = st.hasEditMask ∧
       (handleApplyFilter st p net).hasPreserveMask = st.hasPreserveMask ∧
       (handleApplyFilter st p net).editMask = st.editMask ∧
       (handleApplyFilter st p net).preserveMask = st.preserveMask) ∧
    (∀ (st : AppState) (p : String) (net : GenResult),
       (handleApplyAdjustment st p net).hasEditMask = st.hasEditMask ∧
       (handleApplyAdjustment st p net).hasPreserveMask = st.hasPreserveMask ∧
       (handleApplyAdjustment st p net).editMask = st.editMask ∧
       (handleApplyAdjustment st p net).preserveMask = st.preserveMask) ∧
    (∀ (st : AppState) (img : ImageVersion),
       (handleApplyCrop st img).hasEditMask = st.hasEditMask ∧
       (handleApplyCrop st img).hasPreserveMask = st.hasPreserveMask ∧
       (handleApplyCrop st img).editMask = st.editMask ∧
       (handleApplyCrop st img).preserveMask = st.preserveMask) := by
  refine ⟨?_, ?_, ?_, ?_, ?_, ?_, ?_, ?_, ?_⟩
  · intro st nW nH re rp img h
    rcases handleGenerate_ok_cases st nW nH re rp img with hf | hm
    · rw [hf] at h
      cases h
    · exact hm
  · intro st h
    unfold handleUndo
    rw [if_pos h]
    exact masksCleared_clearMasks _
  · intro st h
    unfold handleRedo
    rw [if_pos h]
    exact masksCleared_clearMasks _
  · intro st h
    unfold handleReset
    rw [if_pos h]
    exact masksCleared_clearMasks _
  · intro st
    exact masksCleared_clearMasks _
  · intro st f w h
    exact masksCleared_clearMasks _
  · intro st p net
    unfold handleApplyFilter
    split
    · exact ⟨rfl, rfl, rfl, rfl⟩
    split
    · exact ⟨rfl, rfl, rfl, rfl⟩
    · cases net <;> exact ⟨rfl, rfl, rfl, rfl⟩
  · intro st p net
    unfold handleApplyAdjustment
    split
    · exact ⟨rfl, rfl, rfl, rfl⟩
    split
    · exact ⟨rfl, rfl, rfl, rfl⟩
    · cases net <;> exact ⟨rfl, rfl, rfl, rfl⟩
  · intro st img
    unfold handleApplyCrop
    split
    · exact ⟨rfl, rfl, rfl, rfl⟩
    · exact ⟨rfl, rfl, rfl, rfl⟩

/-- Witness for C5 amended: a successful generation submission and an undo
both end with cleared masks. -/
theorem maskClear_amended_witness :
    masksCleared (handleGenerate stGenReady 1 1 [5] [] (GenResult.ok (ImageVersion.mk 1))).1 ∧
    masksCleared (handleUndo (mkHistoryState [ImageVersion.mk 0, ImageVersion.mk 1] 1)) :=
  ⟨maskClear_amended.1 stGenReady 1 1 [5] [] (ImageVersion.mk 1) (by decide),
   maskClear_amended.2.1 (mkHistoryState [ImageVersion.mk 0, ImageVersion.mk 1] 1) (by decide)⟩

/-- C6 evidence: the crop gate inspects only the selection width, so a
completed selection of width 5 and height 0 passes the isCropping gate and
applying the crop commits a new ImageVersion, while the claim requires a
zero-height selection to fail validation with the history unchanged.  A
zero-width selection, by contrast, is rejected. -/
theorem zeroHeightCrop_commits :
    stCropZeroHeight.completedCrop = some { x := 0, y := 0, width := 5, height := 0 } ∧
    isCropping stCropZeroHeight = true ∧
    (applyCropFromPanel stCropZeroHeight (ImageVersion.mk 1)).history =
      [ImageVersion.mk 0, ImageVersion.mk 1] ∧
    (applyCropFromPanel stCropZeroHeight (ImageVersion.mk 1)).historyIndex = 1 ∧
    isCropping { stCropZeroHeight with
      completedCrop := some { x := 0, y := 0, width := 0, height := 5 } } = false := by
  decide

/-- C7: exporting a mask at native resolution returns no mask exactly when
every alpha sample of the rescaled result is zero, and otherwise returns a
raster of exactly the native dimensions carrying those samples. -/
theorem scaleAndExportMask_none_iff_blank (nW nH : Nat) (re : List Nat)
    (hlen : re.length = nW * nH) :
    (scaleAndExportMask nW nH re = none ↔ ∀ a ∈ re, a = 0) ∧
    (∀ r : Raster, scaleAndExportMask nW nH re = some r →
       r.width = nW ∧ r.height = nH ∧ r.alpha = re) := by
  unfold scaleAndExportMask
  split
  · split
    · rename_i hgate hall
      refine ⟨⟨fun _ a ha => ?_, fun _ => rfl⟩, fun r hr => nomatch hr⟩
      simpa using List.all_eq_true.mp hall a ha
    · rename_i hgate hall
      refine ⟨⟨(fun h => nomatch h), fun hz => ?_⟩, fun r hr => ?_⟩
      · exact absurd (List.all_eq_true.mpr fun a ha => by simpa using hz a ha) hall
      · obtain rfl : ({ width := nW, height := nH, alpha := re } : Raster) = r := by
          injection hr
        exact ⟨rfl, rfl, rfl⟩
  · rename_i hgate
    simp only [Bool.or_eq_true, decide_eq_true_eq, not_or] at hgate
    refine ⟨⟨(fun h => nomatch h), fun hz => ?_⟩, fun r hr => ?_⟩
    · exfalso
      cases re with
      | nil =>
          have hpos : 0 < nW * nH :=
            Nat.mul_pos (Nat.pos_of_ne_zero hgate.1.1) (Nat.pos_of_ne_zero hgate.1.2)
          rw [← hlen] at hpos
          simp at hpos
      | cons a t =>
          exact hgate.2 (by simpa using hz a (List.mem_cons_self a t))
    · obtain rfl : ({ width := nW, height := nH, alpha := re } : Raster) = r := by
        injection hr
      exact ⟨rfl, rfl, rfl⟩

/-- Witness for C7 at a 2 by 1 native size with one opaque sample. -/
theorem scaleAndExportMask_none_iff_blank_witness :
    (scaleAndExportMask 2 1 [0, 7] = none ↔ ∀ a ∈ ([0, 7] : List Nat), a = 0) ∧
    (∀ r : Raster, scaleAndExportMask 2 1 [0, 7] = some r →
       r.width = 2 ∧ r.height = 1 ∧ r.alpha = [0, 7]) :=
  scaleAndExportMask_none_iff_blank 2 1 [0, 7] (by decide)

/-- Counterexample to C8: from a positive output size of 100 by 100, the
width control mutation with the input string 0 sets the width to 0, so a
user mutation does not preserve width > 0. -/
theorem outputSize_zero_counterexample :
    stOutput.outputSize = some { width := 100, height := 100 } ∧
    (handleWidthChange stOutput "0").outputSize = some { width := 0, height := 100 } ∧
    ¬ (∀ sz : Size, (handleWidthChange stOutput "0").outputSize = some sz → 0 < sz.width) := by
  refine ⟨by decide, by decide, fun hall => ?_⟩
  have h := hall { width := 0, height := 100 } (by decide)
  simp at h

/-- C8 amended: the output size is initialized from the uploaded image
natural dimensions, and a mutation through the width or height control
sets that dimension to the parsed integer of the input (0 when the input
does not parse); positivity of both dimensions is preserved exactly when
the parsed value is positive, not unconditionally. -/
theorem outputSize_mutation_amended :
    (∀ (st : AppState) (f : ImageVersion) (w h : Int),
       (proceedWithImageUpload st f w h).outputSize = some { width := w, height := h }) ∧
    (∀ (st : AppState) (sz : Size) (v : String), st.outputSize = some sz →
       (handleWidthChange st v).outputSize =
         some { width := jsParseIntOr0 v, height := sz.height } ∧
       (handleHeightChange st v).outputSize =
         some { width := sz.width, height := jsParseIntOr0 v }) ∧
    (∀ (st : AppState) (sz : Size) (v : String), st.outputSize = some sz → 0 < sz.height →
       ((∀ sz2 : Size, (handleWidthChange st v).outputSize = some sz2 →
           0 < sz2.width ∧ 0 < sz2.height) ↔ 0 < jsParseIntOr0 v)) := by
  refine ⟨fun st f w h => rfl, fun st sz v h => ?_, fun st sz v h hh => ?_⟩
  · unfold handleWidthChange handleHeightChange
    rw [h]
    exact ⟨rfl, rfl⟩
  · unfold handleWidthChange
    rw [h]
    constructor
    · intro hall
      exact (hall { width := jsParseIntOr0 v, height := sz.height } rfl).1
    · intro hpos sz2 hsz2
      obtain rfl : ({ width := jsParseIntOr0 v, height := sz.height } : Size) = sz2 := by
        injection hsz2
      exact ⟨hpos, hh⟩

/-- Witness for C8 amended: width mutation with input 7 on a concrete
state. -/
theorem outputSize_mutation_amended_witness :
    (handleWidthChange stOutput "7").outputSize =
      some { width := jsParseIntOr0 "7", height := 100 } :=
  (outputSize_mutation_amended.2.1 stOutput { width := 100, height := 100 } "7" (by decide)).1

/-- C9: whenever a local validation error applies to a generation
submission (no image loaded, blank instruction, empty edit mask flag,
unset output size, or an edit mask that exports to nothing), the
generation service is never invoked, an error is surfaced, and the
history, index, prompt ledger and both mask layers are unchanged. -/
theorem generate_validation_no_mutation (st : AppState) (nW nH : Nat)
    (re rp : List Nat) (net : GenResult)
    (hval : currentImage st = none ∨ trimmedEmpty st.prompt = true ∨
      st.hasEditMask = false ∨ st.outputSize = none ∨
      scaleAndExportMask nW nH re = none) :
    (handleGenerate st nW nH re rp net).2 = false ∧
    (handleGenerate st nW nH re rp net).1.history = st.history ∧
    (handleGenerate st nW nH re rp net).1.historyIndex = st.historyIndex ∧
    (handleGenerate st nW nH re rp net).1.promptHistory = st.promptHistory ∧
    (handleGenerate st nW nH re rp net).1.editMask = st.editMask ∧
    (handleGenerate st nW nH re rp net).1.preserveMask = st.preserveMask ∧
    (handleGenerate st nW nH re rp net).1.hasEditMask = st.hasEditMask ∧
    (handleGenerate st nW nH re rp net).1.hasPreserveMask = st.hasPreserveMask ∧
    (handleGenerate st nW nH re rp net).1.error.isSome = true := by
  unfold handleGenerate
  split
  · exact ⟨rfl, rfl, rfl, rfl, rfl, rfl, rfl, rfl, rfl⟩
  split
  · exact ⟨rfl, rfl, rfl, rfl, rfl, rfl, rfl, rfl, rfl⟩
  split
  · exact ⟨rfl, rfl, rfl, rfl, rfl, rfl, rfl, rfl, rfl⟩
  split
  · exact ⟨rfl, rfl, rfl, rfl, rfl, rfl, rfl, rfl, rfl⟩
  · dsimp only
    split
    · exact ⟨rfl, rfl, rfl, rfl, rfl, rfl, rfl, rfl, rfl⟩
    · exfalso
      rcases hval with h | h | h | h | h <;> simp_all

/-- Witness for C9 at the empty initial state (no image loaded). -/
theorem generate_validation_no_mutation_witness :
    (handleGenerate initialState 1 1 [5] [] (GenResult.ok (ImageVersion.mk 1))).2 = false ∧
    (handleGenerate initialState 1 1 [5] [] (GenResult.ok (ImageVersion.mk 1))).1.history =
      initialState.history :=
  ⟨(generate_validation_no_mutation initialState 1 1 [5] [] (GenResult.ok (ImageVersion.mk 1))
      (Or.inl (by decide))).1,
   (generate_validation_no_mutation initialState 1 1 [5] [] (GenResult.ok (ImageVersion.mk 1))
      (Or.inl (by decide))).2.1⟩

/-- C10: applying a crop never touches the prompt ledger, while (with a
completed selection and a displayed image) it appends the rasterized
result to the truncated history; undo, redo and reset also leave the
ledger unchanged, and only a new upload empties it. -/
theorem applyCrop_ledger_frame :
    (∀ (st : AppState) (img : ImageVersion),
       (handleApplyCrop st img).promptHistory = st.promptHistory ∧
       (applyCropFromPanel st img).promptHistory = st.promptHistory) ∧
    (∀ (st : AppState) (img : ImageVersion) (c : CropRect),
       st.completedCrop = some c → (currentImage st).isSome = true →
       (handleApplyCrop st img).history =
         jsSliceTo st.history (st.historyIndex + 1) ++ [img]) ∧
    (∀ st : AppState,
       (handleUndo st).promptHistory = st.promptHistory ∧
       (handleRedo st).promptHistory = st.promptHistory ∧
       (handleReset st).promptHistory = st.promptHistory ∧
       (handleUploadNew st).promptHistory = []) := by
  refine ⟨?_, ?_, ?_⟩
  · intro st img
    have h : (handleApplyCrop st img).promptHistory = st.promptHistory := by
      unfold handleApplyCrop
      split
      · rfl
      · rfl
    refine ⟨h, ?_⟩
    unfold applyCropFromPanel
    split
    · exact h
    · rfl
  · intro st img c hc hi
    obtain ⟨v, hv⟩ := Option.isSome_iff_exists.mp hi
    unfold handleApplyCrop
    rw [hc, hv]
    simp only [Option.isNone_some, Bool.or_self, Bool.false_eq_true, if_false]
    rfl
  · intro st
    refine ⟨?_, ?_, ?_, rfl⟩
    · unfold handleUndo
      split
      · exact clearMasks_promptHistory _
      · rfl
    · unfold handleRedo
      split
      · exact clearMasks_promptHistory _
      · rfl
    · unfold handleReset
      split
      · exact clearMasks_promptHistory _
      · rfl

/-- Witness for C10: the crop commit on a concrete ready state. -/
theorem applyCrop_ledger_frame_witness :
    (handleApplyCrop stCropReady (ImageVersion.mk 1)).history =
      jsSliceTo stCropReady.history (stCropReady.historyIndex + 1) ++ [ImageVersion.mk 1] :=
  applyCrop_ledger_frame.2.1 stCropReady (ImageVersion.mk 1)
    { x := 0, y := 0, width := 5, height := 5 } (by decide) (by decide)
